import Mathlib

/-!
Verification of the semf-model repository (two pandas scripts).

`src/data/parse.py` (the Table Decoder) reads a fixed-width nuclear mass
table with `pd.read_fwf`, derives columns `known`, `E`, `U(E)`, `A`,
`N-Z`, `N/Z`, and writes `binding_energy_per_A.csv`.
`src/analysis/3d-plot.py` (the Surface Renderer) reads that CSV, divides
`E` and `U(E)` by 1000, pivots on `(N-Z, A)` with values `E`, and plots
`exp` of the pivoted grid.

The embedding below models the fragment of pandas semantics these two
scripts exercise: cells are blank, decimal-numeric tokens, or arbitrary
non-numeric tokens.  Special tokens that pandas recognises beyond that
fragment (such as the strings inf, NA or True) occur in no claim and are
not modelled.
-/

namespace SemfModel

/-- A pandas/numpy float cell value: a finite rational, plus the
non-finite sentinels positive infinity, negative infinity and NaN.
Blank cells in a column are NaN; we model a finite-or-NaN cell as
`Option Rat` (with `none` = NaN) and use `PVal` where infinities can
arise (the `N/Z` division and the Surface Renderer's CSV input). -/
inductive PVal where
  | num : ℚ → PVal
  | inf : PVal
  | ninf : PVal
  | nan : PVal
deriving DecidableEq, Repr

/-- `true` exactly on finite numeric values; the sentinels
`inf`, `ninf`, `nan` are the non-finite values. -/
def PVal.isFinite : PVal → Bool
  | .num _ => true
  | _ => false

/-- View a finite-or-NaN cell as a `PVal`. -/
def pvalOf : Option ℚ → PVal
  | none => .nan
  | some q => .num q

/-- IEEE-style float division on `PVal`, as numpy performs it for
`df["N"] / df["Z"]`: NaN propagates; a finite numerator over zero gives
a signed infinity (or NaN for 0/0) instead of raising an error. -/
def pdivP : PVal → PVal → PVal
  | .nan, _ => .nan
  | _, .nan => .nan
  | .num a, .num b =>
      if b = 0 then (if 0 < a then .inf else if a < 0 then .ninf else .nan)
      else .num (a / b)
  | .inf, .num b => if b < 0 then .ninf else .inf
  | .ninf, .num b => if b < 0 then .inf else .ninf
  | .num _, .inf => .num 0
  | .num _, .ninf => .num 0
  | .inf, .inf => .nan
  | .inf, .ninf => .nan
  | .ninf, .inf => .nan
  | .ninf, .ninf => .nan

/-- Addition on finite-or-NaN cells: NaN propagates
(`df["N"] + df["Z"]`). -/
def oadd : Option ℚ → Option ℚ → Option ℚ
  | some a, some b => some (a + b)
  | _, _ => none

/-- Subtraction on finite-or-NaN cells: NaN propagates
(`df["N"] - df["Z"]`). -/
def osub : Option ℚ → Option ℚ → Option ℚ
  | some a, some b => some (a - b)
  | _, _ => none

/-- Numeric value of a decimal digit character. -/
def digToNat (c : Char) : ℕ := c.toNat - 48

/-- Split a character list into its maximal leading run of decimal
digits and the remainder. -/
def takeDigits : List Char → List Char × List Char
  | [] => ([], [])
  | c :: rest =>
      if c.isDigit then
        let p := takeDigits rest
        (c :: p.1, p.2)
      else ([], c :: rest)

/-- Value of a digit run read in base 10. -/
def digitsVal (ds : List Char) : ℕ := ds.foldl (fun a c => 10 * a + digToNat c) 0

/-- Strip an optional exponent part (e or E, optional sign, digits) and
return the exponent as an integer; `none` when the remainder is not a
well-formed (possibly empty) exponent suffix. -/
def parseExpSuffix : List Char → Option ℤ
  | [] => some 0
  | e :: rest =>
      if e = 'e' ∨ e = 'E' then
        let p : ℤ × List Char :=
          match rest with
          | '-' :: r => (-1, r)
          | '+' :: r => (1, r)
          | r => (1, r)
        let d := takeDigits p.2
        if d.1 = [] ∨ d.2 ≠ [] then none
        else some (p.1 * (digitsVal d.1 : ℤ))
      else none

/-- The decimal-literal parser behind `pd.to_numeric` (and behind
`read_fwf`'s per-column numeric type inference), on a stripped cell:
optional sign, digits with an optional fractional part (at least one
digit overall), optional exponent.  Anything else fails. -/
def parseNum (cs : List Char) : Option ℚ :=
  let s : ℚ × List Char :=
    match cs with
    | '-' :: r => (-1, r)
    | '+' :: r => (1, r)
    | r => (1, r)
  let ip := takeDigits s.2
  let fp : List Char × List Char :=
    match ip.2 with
    | '.' :: r => takeDigits r
    | r => ([], r)
  if ip.1 = [] ∧ fp.1 = [] then none
  else
    let m : ℚ := (digitsVal ip.1 : ℚ) + (digitsVal fp.1 : ℚ) / (10 : ℚ) ^ fp.1.length
    match parseExpSuffix fp.2 with
    | none => none
    | some k => some (s.1 * m * (10 : ℚ) ^ k)

/-! ## Table Decoder (src/data/parse.py) -/

/-- Drop leading and trailing whitespace of a cell, as `read_fwf`
strips each fixed-width slice. -/
def stripWs (cs : List Char) : List Char :=
  ((cs.dropWhile Char.isWhitespace).reverse.dropWhile Char.isWhitespace).reverse

/-- Slice a fixed-width field out of a data line, Python-slice style
(`line[start:stop]`, truncated at the end of a short line), strip it,
and read a blank result as a missing cell (NaN), as `read_fwf` does. -/
def sliceField (line : List Char) (start stop : ℕ) : Option (List Char) :=
  let cell := stripWs ((line.drop start).take (stop - start))
  if cell = [] then none else some cell

/-- The `widths` tuple of the `read_fwf` call is
(1,3,5,5,5,1,3,4,1,14,12,13,1,10,1,2,13,11,1,3,1,13,12) and
`usecols=(2, 3, 11, 13)`; the cumulative offsets put column 2 (`N`) at
characters [4,9). -/
def fieldN (line : List Char) : Option (List Char) := sliceField line 4 9

/-- Column 3 of the fixed-width layout (`Z`), characters [9,14). -/
def fieldZ (line : List Char) : Option (List Char) := sliceField line 9 14

/-- Column 11 of the fixed-width layout (`E`), characters [54,67). -/
def fieldE (line : List Char) : Option (List Char) := sliceField line 54 67

/-- Column 13 of the fixed-width layout (`U(E)`), characters [68,78). -/
def fieldUE (line : List Char) : Option (List Char) := sliceField line 68 78

/-- `Series.str.replace("#", "")`: remove every occurrence of the
estimation marker character, keeping the other characters in order. -/
def stripHash : List Char → List Char
  | [] => []
  | c :: cs => if c = '#' then stripHash cs else c :: stripHash cs

/-- `pd.to_numeric(cell, errors="coerce")` on one cell of a string
column: a missing cell stays NaN and an unparseable token is coerced to
NaN (`none`); a decimal token becomes its value. -/
def toNumericCoerce (cell : Option (List Char)) : Option ℚ := cell.bind parseNum

/-- `read_fwf` column type inference: a column acquires a numeric dtype
exactly when every non-blank cell parses as a decimal literal
(blank-only columns are all-NaN float columns); otherwise it is kept as
an object column of strings. -/
def columnIsNumeric (col : List (Option (List Char))) : Bool :=
  col.all fun c =>
    match c with
    | none => true
    | some cs => (parseNum cs).isSome

/-- Success condition of the strict `pd.to_numeric(col.str.replace("#",""))`
(default `errors="raise"`): every non-blank cell, after the marker is
stripped, parses as a decimal literal.  NaN cells pass through. -/
def columnParsesStripped (col : List (Option (List Char))) : Bool :=
  col.all fun c =>
    match c with
    | none => true
    | some cs => (parseNum (stripHash cs)).isSome

/-- One decoded Nuclide Record: the four parsed columns and the derived
columns of lines 15-24 of parse.py (`none` models NaN / an empty CSV
field). -/
structure Record where
  N : Option ℚ
  Z : Option ℚ
  E : Option ℚ
  UE : Option ℚ
  known : ℕ
  A : Option ℚ
  NmZ : Option ℚ
  NdZ : PVal
deriving DecidableEq, Repr

/-- The per-row content of the decoder, given that the column-level
checks of `decode` passed.
`N`, `Z`: the numeric values `read_fwf` inferred for those columns;
`known` (line 15): `1 - pd.isnull(pd.to_numeric(df["E"], errors="coerce"))`,
computed from the raw `E` cell, before the marker is stripped;
`E`, `U(E)` (lines 16-17): strict `to_numeric` after stripping "#";
`A` (line 18): `N + Z`;  `N-Z` (line 19): `N - Z`;
`N/Z` (line 24): float division tolerating a zero divisor. -/
def rowOfLine (line : List Char) : Record :=
  let n := toNumericCoerce (fieldN line)
  let z := toNumericCoerce (fieldZ line)
  let eRaw := fieldE line
  let uRaw := fieldUE line
  { N := n
    Z := z
    E := (eRaw.map stripHash).bind parseNum
    UE := (uRaw.map stripHash).bind parseNum
    known := 1 - (if toNumericCoerce eRaw = none then 1 else 0)
    A := oadd n z
    NmZ := osub n z
    NdZ := pdivP (pvalOf n) (pvalOf z) }

/-- The header written by `df.to_csv(..., index=False)`: exactly the
DataFrame's column names, in insertion order, with no index column. -/
def csvHeader : List String :=
  ["N", "Z", "E", "U(E)", "known", "A", "N-Z", "N/Z"]

/-- The output of the Table Decoder: `binding_energy_per_A.csv` as a
header plus one record per data row (a `none` cell is written as an
empty CSV field, never as 0). -/
structure CSV where
  header : List String
  rows : List Record
deriving DecidableEq, Repr

/-- The Table Decoder on the data lines of the input file (the 28
banner/header lines of `header=28` are already skipped).  The run is a
single pass whose column-level operations can raise:
* lines 16/17 raise `AttributeError` when `.str.replace` is applied to a
  column that `read_fwf` inferred as numeric (a string accessor needs an
  object column), and `ValueError` when, after the marker is stripped, a
  non-blank cell still does not parse (`pd.to_numeric`, default
  `errors="raise"`);
* line 19 raises `TypeError` when `N` or `Z` came out non-numeric
  (subtracting object columns of strings).
When nothing raises, line 27 writes one CSV row per input line, in
input order. -/
def decode (lines : List (List Char)) : Except String CSV :=
  if columnIsNumeric (lines.map fieldE) then
    .error "AttributeError: Can only use .str accessor with string values (E)"
  else if columnParsesStripped (lines.map fieldE) then
    if columnIsNumeric (lines.map fieldUE) then
      .error "AttributeError: Can only use .str accessor with string values (U(E))"
    else if columnParsesStripped (lines.map fieldUE) then
      if columnIsNumeric (lines.map fieldN) && columnIsNumeric (lines.map fieldZ) then
        .ok { header := csvHeader, rows := lines.map rowOfLine }
      else .error "TypeError: unsupported operand type for object columns (N, Z)"
    else .error "ValueError: Unable to parse string (U(E))"
  else .error "ValueError: Unable to parse string (E)"

/-- `true` exactly when the decoder run succeeded and wrote a CSV. -/
def decodeOk (r : Except String CSV) : Bool :=
  match r with
  | .ok _ => true
  | .error _ => false

/-! ## Surface Renderer (src/analysis/3d-plot.py) -/

/-- One row of `binding_energy_per_A.csv` as the Surface Renderer reads
it back with `pd.read_csv`: all eight columns are float cells. -/
structure CsvRow where
  N : PVal
  Z : PVal
  E : PVal
  UE : PVal
  known : PVal
  A : PVal
  NmZ : PVal
  NdZ : PVal
deriving DecidableEq, Repr

/-- Lines 14-15 of 3d-plot.py: `df["E"] /= 1000` and
`df["U(E)"] /= 1000`, the keV-to-MeV conversion. -/
def convertUnits (r : CsvRow) : CsvRow :=
  { r with E := pdivP r.E (.num 1000), UE := pdivP r.UE (.num 1000) }

/-- Cell lookup of `df.pivot(index="N-Z", columns="A", values="E")`
(line 17): the `E` value of the row whose `N-Z` equals the grid row
label `d` and whose `A` equals the grid column label `a`; `none` (an
empty cell) when no row matches.  pandas raises on duplicate
`(N-Z, A)` pairs; under the uniqueness hypothesis of the claims the
first match below is the only match. -/
def pivotCell : List CsvRow → PVal → PVal → Option PVal
  | [], _, _ => none
  | r :: rs, d, a => if r.NmZ = d ∧ r.A = a then some r.E else pivotCell rs d a

/-- The Plot Grid: unit conversion followed by the pivot, giving the
cell at row label `d` (an `N-Z` value) and column label `a` (an `A`
value).  The plotted surface is `np.exp` of these cells. -/
def rendererGrid (rows : List CsvRow) (d a : PVal) : Option PVal :=
  pivotCell (rows.map convertUnits) d a

/-- No row of the list carries the grid key `(d, a)`. -/
def keyFree (d a : PVal) : List CsvRow → Bool
  | [] => true
  | r :: rs => if r.NmZ = d ∧ r.A = a then false else keyFree d a rs

/-- All `(N-Z, A)` pairs of the CSV are distinct (the condition under
which `df.pivot` is defined). -/
def uniqueKeys : List CsvRow → Bool
  | [] => true
  | r :: rs => keyFree r.NmZ r.A rs && uniqueKeys rs

/-! ## Concrete inputs used by the witnesses and counterexamples -/

/-- Right-justify a token in a fixed-width field of `w` blanks. -/
def padLeft (w : ℕ) (s : List Char) : List Char :=
  List.replicate (w - s.length) ' ' ++ s

/-- Build a 78-character data line of the mass-table layout carrying
the four extracted fields: `N` at [4,9), `Z` at [9,14), `E` at [54,67)
and `U(E)` at [68,78), everything else blank. -/
def mkLine (n z e u : List Char) : List Char :=
  List.replicate 4 ' ' ++ padLeft 5 n ++ padLeft 5 z ++ List.replicate 40 ' ' ++
    padLeft 13 e ++ [' '] ++ padLeft 10 u

/-- A well-formed data line whose `E` and `U(E)` carry the estimation
marker, so that both columns keep their string (object) dtype. -/
def hashLine : List Char :=
  mkLine "1".toList "1".toList "335.84#".toList "10#".toList

/-- A data line whose raw `E` field is the marker-flagged numeric token
of claim C1. -/
def c1Line : List Char :=
  mkLine "1".toList "1".toList "-1234#".toList "1#".toList

/-- A data line with a blank `E` field. -/
def blankLine : List Char :=
  mkLine "3".toList "2".toList [] "2#".toList

/-- A data line with `N = 1`, `Z = 0`. -/
def z0Line : List Char :=
  mkLine "1".toList "0".toList "8071.3181#".toList "10#".toList

/-- A data line shorter than every field of the fixed-width layout. -/
def shortLine : List Char := "abc".toList

/-- A data line whose raw `E` field is non-numeric even after the
marker is stripped. -/
def badLine : List Char :=
  mkLine "1".toList "1".toList "12x34#".toList "10#".toList

/-! ## Helper lemmas -/

/-- A successful decoder run writes exactly the fixed header and one
row per input line, in input order. -/
theorem decode_ok_shape {lines : List (List Char)} {csv : CSV}
    (h : decode lines = .ok csv) : csv = ⟨csvHeader, lines.map rowOfLine⟩ := by
  unfold decode at h
  split_ifs at h
  all_goals first
    | exact Except.noConfusion h
    | (injection h with h1; exact h1.symm)

/-- If the strict column conversion succeeded, every non-blank cell of
that column parses after the marker is stripped. -/
theorem columnParsesStripped_mem {lines : List (List Char)}
    {f : List Char → Option (List Char)}
    (hall : columnParsesStripped (lines.map f) = true)
    {l : List Char} (hl : l ∈ lines) {cs : List Char} (hc : f l = some cs) :
    (parseNum (stripHash cs)).isSome = true := by
  unfold columnParsesStripped at hall
  rw [List.all_eq_true] at hall
  have hcell := hall (f l) (List.mem_map_of_mem f hl)
  rw [hc] at hcell
  simpa using hcell

/-- The `known` flag of a decoded row is `0` exactly when the raw `E`
cell, before the marker is stripped, does not parse as a number. -/
theorem rowOfLine_known_eq_zero_iff (l : List Char) :
    (rowOfLine l).known = 0 ↔ toNumericCoerce (fieldE l) = none := by
  cases h : toNumericCoerce (fieldE l)
  all_goals simp_all [rowOfLine]

/-- A slice that starts past the end of the line is blank. -/
theorem sliceField_none_of_short {l : List Char} {s t : ℕ}
    (h : l.length ≤ s) : sliceField l s t = none := by
  unfold sliceField
  rw [List.drop_eq_nil_of_le h]
  simp [stripWs]

/-- Value of the token "1". -/
theorem parseNum_one : parseNum "1".toList = some 1 := by
  have h : parseNum "1".toList
      = some ((1 : ℚ) * ((↑(1 : ℕ)) + (↑(0 : ℕ)) / (10 : ℚ) ^ (0 : ℕ)) * (10 : ℚ) ^ (0 : ℤ)) := rfl
  rw [h]
  norm_num

/-- Value of the token "0". -/
theorem parseNum_zero : parseNum "0".toList = some 0 := by
  have h : parseNum "0".toList
      = some ((1 : ℚ) * ((↑(0 : ℕ)) + (↑(0 : ℕ)) / (10 : ℚ) ^ (0 : ℕ)) * (10 : ℚ) ^ (0 : ℤ)) := rfl
  rw [h]
  norm_num

/-- Value of the token "-1234". -/
theorem parseNum_neg1234 : parseNum "-1234".toList = some (-1234) := by
  have h : parseNum "-1234".toList
      = some ((-1 : ℚ) * ((↑(1234 : ℕ)) + (↑(0 : ℕ)) / (10 : ℚ) ^ (0 : ℕ)) * (10 : ℚ) ^ (0 : ℤ)) := rfl
  rw [h]
  norm_num

/-- Value of the token "1234". -/
theorem parseNum_1234 : parseNum "1234".toList = some 1234 := by
  have h : parseNum "1234".toList
      = some ((1 : ℚ) * ((↑(1234 : ℕ)) + (↑(0 : ℕ)) / (10 : ℚ) ^ (0 : ℕ)) * (10 : ℚ) ^ (0 : ℤ)) := rfl
  rw [h]
  norm_num

/-- The `N` cell of the decoded `hashLine`. -/
theorem hashLine_N : (rowOfLine hashLine).N = some 1 := by
  rw [show (rowOfLine hashLine).N = parseNum "1".toList from rfl, parseNum_one]

/-- The `Z` cell of the decoded `hashLine`. -/
theorem hashLine_Z : (rowOfLine hashLine).Z = some 1 := by
  rw [show (rowOfLine hashLine).Z = parseNum "1".toList from rfl, parseNum_one]

/-- The `N` cell of the decoded `z0Line`. -/
theorem z0Line_N : (rowOfLine z0Line).N = some 1 := by
  rw [show (rowOfLine z0Line).N = parseNum "1".toList from rfl, parseNum_one]

/-- The `Z` cell of the decoded `z0Line`. -/
theorem z0Line_Z : (rowOfLine z0Line).Z = some 0 := by
  rw [show (rowOfLine z0Line).Z = parseNum "0".toList from rfl, parseNum_zero]

/-- The `E` cell of the decoded `c1Line`. -/
theorem c1Line_E : (rowOfLine c1Line).E = some (-1234) := by
  rw [show (rowOfLine c1Line).E = parseNum "-1234".toList from rfl, parseNum_neg1234]

/-- The derived `A` column of a decoded row is the cell sum of its `N`
and `Z` columns. -/
theorem rowOfLine_A (l : List Char) :
    (rowOfLine l).A = oadd (rowOfLine l).N (rowOfLine l).Z := rfl

/-- The derived `N-Z` column of a decoded row is the cell difference of
its `N` and `Z` columns. -/
theorem rowOfLine_NmZ (l : List Char) :
    (rowOfLine l).NmZ = osub (rowOfLine l).N (rowOfLine l).Z := rfl

/-- The derived `N/Z` column of a decoded row is the float division of
its `N` and `Z` columns. -/
theorem rowOfLine_NdZ (l : List Char) :
    (rowOfLine l).NdZ = pdivP (pvalOf (rowOfLine l).N) (pvalOf (rowOfLine l).Z) := rfl

/-! ## Claim C1 -/

/-- C1 (counterexample): on a data row whose raw `E` field is the
marker-flagged numeric token "-1234#", the decoder outputs
`known = 0` — not `known = 1` as the claim states — while the `E`
column still gets the value -1234, because line 15 of parse.py feeds
the raw, unstripped field to `pd.to_numeric(..., errors="coerce")` and
"-1234#" does not parse as a number. -/
theorem marker_token_known_zero_cx :
    decode [c1Line] = .ok ⟨csvHeader, [rowOfLine c1Line]⟩ ∧
    fieldE c1Line = some "-1234#".toList ∧
    (rowOfLine c1Line).known = 0 ∧ ¬ (rowOfLine c1Line).known = 1 ∧
    (rowOfLine c1Line).E = some (-1234) :=
  ⟨rfl, rfl, rfl, by decide, c1Line_E⟩

/-- C1 (amended): in every record the decoder outputs, `known` is `0`
exactly when the raw `E` field, before the estimation marker is
stripped, does not parse as a number; in particular a row whose raw
`E` field is "-1234#" gets `known = 0` while its `E` value is
-1234 (keV). -/
theorem known_reflects_raw_parseability (lines : List (List Char)) (csv : CSV)
    (h : decode lines = .ok csv) (i : ℕ) (l : List Char) (r : Record)
    (hl : lines[i]? = some l) (hr : csv.rows[i]? = some r) :
    (r.known = 0 ↔ toNumericCoerce (fieldE l) = none) ∧
    (fieldE l = some "-1234#".toList → r.known = 0 ∧ r.E = some (-1234)) := by
  have hshape := decode_ok_shape h
  subst hshape
  have hr2 : (lines.map rowOfLine)[i]? = some r := hr
  rw [List.getElem?_map, hl] at hr2
  have hrl : r = rowOfLine l := by
    simpa using hr2.symm
  subst hrl
  refine ⟨rowOfLine_known_eq_zero_iff l, fun hE => ⟨?_, ?_⟩⟩
  · refine (rowOfLine_known_eq_zero_iff l).mpr ?_
    rw [show toNumericCoerce (fieldE l) = (fieldE l).bind parseNum from rfl, hE]
    decide
  · show ((fieldE l).map stripHash).bind parseNum = some (-1234)
    rw [hE]
    exact (show (Option.map stripHash (some "-1234#".toList)).bind parseNum
        = parseNum "-1234".toList from rfl).trans parseNum_neg1234

/-- C1 (witness): the amended theorem applied to the one-line input
whose raw `E` field is "-1234#". -/
theorem known_reflects_raw_parseability_witness :
    ((rowOfLine c1Line).known = 0 ↔ toNumericCoerce (fieldE c1Line) = none) ∧
    (fieldE c1Line = some "-1234#".toList →
      (rowOfLine c1Line).known = 0 ∧ (rowOfLine c1Line).E = some (-1234)) :=
  known_reflects_raw_parseability [c1Line] ⟨csvHeader, [rowOfLine c1Line]⟩ rfl
    0 c1Line (rowOfLine c1Line) rfl rfl

/-! ## Claim C2 -/

/-- C2: for every record of a successful decoder run, the derived
columns satisfy `A = N + Z` and `N-Z = N - Z` exactly, where `N` and
`Z` are the values parsed from that record's row. -/
theorem derived_columns_exact (lines : List (List Char)) (csv : CSV)
    (h : decode lines = .ok csv) (r : Record) (hr : r ∈ csv.rows)
    (n z : ℚ) (hn : r.N = some n) (hz : r.Z = some z) :
    r.A = some (n + z) ∧ r.NmZ = some (n - z) := by
  have hshape := decode_ok_shape h
  subst hshape
  obtain ⟨l, -, rfl⟩ := List.mem_map.mp hr
  constructor
  · rw [rowOfLine_A, hn, hz]
    rfl
  · rw [rowOfLine_NmZ, hn, hz]
    rfl

/-- C2 (witness): the invariant evaluated on a concrete decoded row
with `N = 1`, `Z = 1`. -/
theorem derived_columns_exact_witness :
    (rowOfLine hashLine).A = some (1 + 1) ∧
    (rowOfLine hashLine).NmZ = some (1 - 1) :=
  derived_columns_exact [hashLine] ⟨csvHeader, [rowOfLine hashLine]⟩ rfl
    (rowOfLine hashLine) (List.Mem.head _) 1 1 hashLine_N hashLine_Z

/-! ## Claim C3 -/

/-- C3: a successful decoder run drops no input record — the CSV holds
exactly `rowOfLine l` for each data line `l`, in input order — and a
row whose raw `E` field is blank is retained with `known = 0` and an
empty (`none`) `E` cell, never coerced to zero.  (When the run aborts,
as in C6, no CSV is produced at all; the claim concerns produced
output.) -/
theorem no_row_dropped (lines : List (List Char)) (csv : CSV)
    (h : decode lines = .ok csv) (l : List Char) (hl : l ∈ lines)
    (hblank : fieldE l = none) :
    csv.rows = lines.map rowOfLine ∧ csv.rows.length = lines.length ∧
    rowOfLine l ∈ csv.rows ∧ (rowOfLine l).known = 0 ∧
    (rowOfLine l).E = none ∧ ¬ (rowOfLine l).E = some 0 := by
  have hshape := decode_ok_shape h
  subst hshape
  have hE : (rowOfLine l).E = none := by
    show ((fieldE l).map stripHash).bind parseNum = none
    rw [hblank]
    rfl
  refine ⟨rfl, by simp, List.mem_map_of_mem rowOfLine hl, ?_, hE, by simp [hE]⟩
  refine (rowOfLine_known_eq_zero_iff l).mpr ?_
  rw [show toNumericCoerce (fieldE l) = (fieldE l).bind parseNum from rfl, hblank]
  rfl

/-- C3 (witness): a two-line input whose first line has a blank `E`
field; the blank row is retained, in order, with `known = 0` and an
empty `E` cell. -/
theorem no_row_dropped_witness :
    (⟨csvHeader, [rowOfLine blankLine, rowOfLine hashLine]⟩ : CSV).rows
        = [blankLine, hashLine].map rowOfLine ∧
    (⟨csvHeader, [rowOfLine blankLine, rowOfLine hashLine]⟩ : CSV).rows.length
        = [blankLine, hashLine].length ∧
    rowOfLine blankLine ∈ (⟨csvHeader, [rowOfLine blankLine, rowOfLine hashLine]⟩ : CSV).rows ∧
    (rowOfLine blankLine).known = 0 ∧
    (rowOfLine blankLine).E = none ∧ ¬ (rowOfLine blankLine).E = some 0 :=
  no_row_dropped [blankLine, hashLine]
    ⟨csvHeader, [rowOfLine blankLine, rowOfLine hashLine]⟩ rfl
    blankLine (List.Mem.head _) rfl

/-! ## Claim C4 -/

/-- C4 (counterexample): a successful run writes a header with exactly
the listed column names — but that is eight columns, not the nine the
claim asserts. -/
theorem header_not_nine_columns_cx :
    decode [hashLine] = .ok ⟨csvHeader, [rowOfLine hashLine]⟩ ∧
    csvHeader = ["N", "Z", "E", "U(E)", "known", "A", "N-Z", "N/Z"] ∧
    csvHeader.length = 8 ∧ ¬ csvHeader.length = 9 :=
  ⟨rfl, rfl, rfl, by decide⟩

/-- C4 (amended): every successful decoder run begins its CSV with a
header naming the eight columns of the data model, exactly
`N, Z, E, U(E), known, A, N-Z, N/Z` in this order, with no additional
(e.g. index) column. -/
theorem header_names_eight_columns (lines : List (List Char)) (csv : CSV)
    (h : decode lines = .ok csv) :
    csv.header = ["N", "Z", "E", "U(E)", "known", "A", "N-Z", "N/Z"] ∧
    csv.header.length = 8 := by
  have hshape := decode_ok_shape h
  subst hshape
  exact ⟨rfl, rfl⟩

/-- C4 (witness): the header of a concrete successful run. -/
theorem header_names_eight_columns_witness :
    (⟨csvHeader, [rowOfLine hashLine]⟩ : CSV).header
        = ["N", "Z", "E", "U(E)", "known", "A", "N-Z", "N/Z"] ∧
    (⟨csvHeader, [rowOfLine hashLine]⟩ : CSV).header.length = 8 :=
  header_names_eight_columns [hashLine] ⟨csvHeader, [rowOfLine hashLine]⟩ rfl

/-! ## Claim C5 -/

/-- C5: dividing by a zero `Z` never aborts a decoder run — the
division is total — and every record with `Z = 0` carries a non-finite
`N/Z` sentinel (`inf`, `-inf` or NaN) yet is still among the rows
written to the CSV; with `N = 1`, `Z = 0` the sentinel is positive
infinity. -/
theorem z_zero_division_nonfinite (lines : List (List Char)) (csv : CSV)
    (h : decode lines = .ok csv) (r : Record) (hr : r ∈ csv.rows)
    (hz : r.Z = some 0) :
    r.NdZ.isFinite = false ∧ (r.N = some 1 → r.NdZ = PVal.inf) := by
  have hshape := decode_ok_shape h
  subst hshape
  obtain ⟨l, -, rfl⟩ := List.mem_map.mp hr
  constructor
  · rw [rowOfLine_NdZ, hz]
    cases hN : (rowOfLine l).N with
    | none => rfl
    | some q =>
      show (pdivP (PVal.num q) (PVal.num 0)).isFinite = false
      rw [show pdivP (PVal.num q) (PVal.num 0)
            = if (0 : ℚ) = 0 then (if 0 < q then PVal.inf else if q < 0 then PVal.ninf else PVal.nan)
              else PVal.num (q / 0) from rfl]
      rw [if_pos rfl]
      split_ifs
      all_goals rfl
  · intro hN
    rw [rowOfLine_NdZ, hz, hN]
    decide

/-- C5 (witness): the theorem at the concrete line with `N = 1`,
`Z = 0` (the record is decoded, written, and gets `N/Z = inf`). -/
theorem z_zero_division_nonfinite_witness :
    (rowOfLine z0Line).N = some 1 ∧
    ((rowOfLine z0Line).NdZ.isFinite = false ∧
      ((rowOfLine z0Line).N = some 1 → (rowOfLine z0Line).NdZ = PVal.inf)) :=
  ⟨z0Line_N,
    z_zero_division_nonfinite [z0Line] ⟨csvHeader, [rowOfLine z0Line]⟩ rfl
      (rowOfLine z0Line) (List.Mem.head _) z0Line_Z⟩

/-! ## Claim C6 -/

/-- C6: if any data line carries an `E` or `U(E)` field that, after all
estimation markers are stripped, is non-blank but still not parseable
as a number, the whole decoder run fails (the strict
`pd.to_numeric` of lines 16-17 raises) and no CSV is produced. -/
theorem bad_token_aborts_run (lines : List (List Char)) (l : List Char)
    (hl : l ∈ lines) (cs : List Char)
    (hfield : fieldE l = some cs ∨ fieldUE l = some cs)
    (_hnb : ¬ stripHash cs = [])
    (hbad : parseNum (stripHash cs) = none) :
    decodeOk (decode lines) = false := by
  unfold decode
  split_ifs with h1 h2 h3 h4 h5
  all_goals try rfl
  exfalso
  cases hfield with
  | inl hE =>
    have hs := columnParsesStripped_mem h2 hl hE
    rw [hbad] at hs
    exact Bool.noConfusion hs
  | inr hU =>
    have hs := columnParsesStripped_mem h4 hl hU
    rw [hbad] at hs
    exact Bool.noConfusion hs

/-- C6 (witness): a concrete line whose raw `E` field "12x34#" strips
to the non-blank, non-numeric "12x34"; the run aborts. -/
theorem bad_token_aborts_run_witness :
    decodeOk (decode [badLine]) = false :=
  bad_token_aborts_run [badLine] badLine (List.Mem.head _) "12x34#".toList
    (Or.inl rfl) (by decide) (by decide)

/-! ## Claim C7 -/

/-- C7 (counterexample): a data line shorter than the fixed-width
layout is not fatal — within a file whose other rows keep the energy
columns non-numeric, the decoder succeeds and emits a row for the
short line, with blank fields decoded as `none` and `known = 0`. -/
theorem short_line_not_fatal_cx :
    shortLine.length ≤ 4 ∧
    decode [shortLine, hashLine]
        = .ok ⟨csvHeader, [rowOfLine shortLine, rowOfLine hashLine]⟩ ∧
    (rowOfLine shortLine).N = none ∧ (rowOfLine shortLine).E = none ∧
    (rowOfLine shortLine).known = 0 :=
  ⟨by decide, rfl, rfl, rfl, rfl⟩

/-- C7 (amended): a data line too short for the fixed-width slices is
not a fatal condition: `read_fwf` slices it Python-style, the missing
fields come out blank, and on a successful run the decoder emits a row
for that line with null `N`, `Z`, `E`, `U(E)` and `known = 0`, rather
than aborting because of it. -/
theorem short_line_recovered (lines : List (List Char)) (csv : CSV)
    (h : decode lines = .ok csv) (l : List Char) (hl : l ∈ lines)
    (hshort : l.length ≤ 4) :
    rowOfLine l ∈ csv.rows ∧ (rowOfLine l).N = none ∧ (rowOfLine l).Z = none ∧
    (rowOfLine l).E = none ∧ (rowOfLine l).UE = none ∧
    (rowOfLine l).known = 0 := by
  have hshape := decode_ok_shape h
  subst hshape
  have hN : fieldN l = none := sliceField_none_of_short hshort
  have hZ : fieldZ l = none := sliceField_none_of_short (hshort.trans (by norm_num))
  have hE : fieldE l = none := sliceField_none_of_short (hshort.trans (by norm_num))
  have hU : fieldUE l = none := sliceField_none_of_short (hshort.trans (by norm_num))
  refine ⟨List.mem_map_of_mem rowOfLine hl, ?_, ?_, ?_, ?_, ?_⟩
  · show (fieldN l).bind parseNum = none
    rw [hN]
    rfl
  · show (fieldZ l).bind parseNum = none
    rw [hZ]
    rfl
  · show ((fieldE l).map stripHash).bind parseNum = none
    rw [hE]
    rfl
  · show ((fieldUE l).map stripHash).bind parseNum = none
    rw [hU]
    rfl
  · refine (rowOfLine_known_eq_zero_iff l).mpr ?_
    rw [show toNumericCoerce (fieldE l) = (fieldE l).bind parseNum from rfl, hE]
    rfl

/-- C7 (witness): the amended theorem at the concrete short line. -/
theorem short_line_recovered_witness :
    rowOfLine shortLine ∈ (⟨csvHeader, [rowOfLine shortLine, rowOfLine hashLine]⟩ : CSV).rows ∧
    (rowOfLine shortLine).N = none ∧ (rowOfLine shortLine).Z = none ∧
    (rowOfLine shortLine).E = none ∧ (rowOfLine shortLine).UE = none ∧
    (rowOfLine shortLine).known = 0 :=
  short_line_recovered [shortLine, hashLine]
    ⟨csvHeader, [rowOfLine shortLine, rowOfLine hashLine]⟩ rfl
    shortLine (List.Mem.head _) (by decide)

/-! ## Renderer lemmas -/

/-- The unit conversion leaves the `N-Z` pivot key unchanged. -/
theorem convertUnits_NmZ (r : CsvRow) : (convertUnits r).NmZ = r.NmZ := rfl

/-- The unit conversion leaves the `A` pivot key unchanged. -/
theorem convertUnits_A (r : CsvRow) : (convertUnits r).A = r.A := rfl

/-- The unit conversion divides the `E` cell by 1000. -/
theorem convertUnits_E (r : CsvRow) : (convertUnits r).E = pdivP r.E (.num 1000) := rfl

/-- If no row of `rs` carries the key `(d, a)`, then no member of `rs`
matches it. -/
theorem keyFree_not_mem {d a : PVal} {rs : List CsvRow}
    (h : keyFree d a rs = true) {r : CsvRow} (hr : r ∈ rs) :
    ¬ (r.NmZ = d ∧ r.A = a) := by
  induction rs with
  | nil => cases hr
  | cons s ss ih =>
    unfold keyFree at h
    split_ifs at h with hs
    cases hr with
    | head => exact hs
    | tail _ hmem => exact ih h hmem

/-- When all `(N-Z, A)` keys are distinct, the pivot cell at a record's
own key holds that record's converted `E` value. -/
theorem pivotCell_mem_unique {rows : List CsvRow} (hu : uniqueKeys rows = true)
    {r : CsvRow} (hr : r ∈ rows) :
    pivotCell (rows.map convertUnits) r.NmZ r.A = some (pdivP r.E (PVal.num 1000)) := by
  induction rows with
  | nil => cases hr
  | cons s ss ih =>
    unfold uniqueKeys at hu
    rw [Bool.and_eq_true] at hu
    rw [List.map_cons]
    simp only [pivotCell]
    cases hr with
    | head => rw [if_pos ⟨rfl, rfl⟩, convertUnits_E]
    | tail _ hmem =>
      rw [if_neg fun hc => keyFree_not_mem hu.1 hmem ⟨hc.1.symm, hc.2.symm⟩]
      exact ih hu.2 hmem

/-- A key carried by no record leaves its pivot cell empty. -/
theorem pivotCell_absent {rows : List CsvRow} {d a : PVal}
    (h : ∀ r ∈ rows, ¬ (r.NmZ = d ∧ r.A = a)) :
    pivotCell (rows.map convertUnits) d a = none := by
  induction rows with
  | nil => rfl
  | cons s ss ih =>
    rw [List.map_cons]
    simp only [pivotCell]
    rw [if_neg fun hc => h s (List.Mem.head _) ⟨hc.1, hc.2⟩]
    exact ih fun r hr => h r (List.Mem.tail _ hr)

/-- The pivot reads only the `N-Z`, `A` and `E` columns: two row lists
agreeing pointwise on those three columns pivot to the same cells. -/
theorem pivotCell_agree (rows1 : List CsvRow) :
    ∀ (rows2 : List CsvRow), rows1.length = rows2.length →
      (∀ p ∈ rows1.zip rows2, p.1.NmZ = p.2.NmZ ∧ p.1.A = p.2.A ∧ p.1.E = p.2.E) →
      ∀ d a, pivotCell (rows1.map convertUnits) d a
        = pivotCell (rows2.map convertUnits) d a := by
  induction rows1 with
  | nil =>
    intro rows2 hlen _ d a
    have h2 : rows2 = [] := List.length_eq_zero.mp hlen.symm
    subst h2
    rfl
  | cons r rs ih =>
    intro rows2 hlen hagree d a
    cases rows2 with
    | nil => simp at hlen
    | cons s ss =>
      have hkey := hagree (r, s) (by simp [List.zip_cons_cons])
      rw [List.map_cons, List.map_cons]
      simp only [pivotCell]
      rw [convertUnits_NmZ, convertUnits_NmZ, convertUnits_A, convertUnits_A,
        convertUnits_E, convertUnits_E, hkey.1, hkey.2.1, hkey.2.2]
      by_cases hc : s.NmZ = d ∧ s.A = a
      · rw [if_pos hc, if_pos hc]
      · rw [if_neg hc, if_neg hc]
        exact ih ss (by simpa using hlen)
          (fun p hp => hagree p (by rw [List.zip_cons_cons]; exact List.mem_cons_of_mem _ hp))
          d a

/-! ## Claim C8 -/

/-- C8: for a CSV whose `(N-Z, A)` pairs are all distinct, the pivoted
Plot Grid places each record's converted `E` value (E/1000) at the cell
whose row label is that record's `N-Z` and whose column label is its
`A`; two records sharing `A` but differing in `N-Z` therefore land in
the same column and different rows, each cell holding only its own
record's value, and a `(N-Z, A)` combination carried by no record
leaves its cell empty. -/
theorem pivot_grid_correct (rows : List CsvRow) (hu : uniqueKeys rows = true)
    (r : CsvRow) (hr : r ∈ rows) (s : CsvRow) (hs : s ∈ rows)
    (d a : PVal) (habsent : ∀ t ∈ rows, ¬ (t.NmZ = d ∧ t.A = a)) :
    rendererGrid rows r.NmZ r.A = some (pdivP r.E (PVal.num 1000)) ∧
    rendererGrid rows s.NmZ s.A = some (pdivP s.E (PVal.num 1000)) ∧
    rendererGrid rows d a = none :=
  ⟨pivotCell_mem_unique hu hr, pivotCell_mem_unique hu hs, pivotCell_absent habsent⟩

/-- A CSV row with `A = 20`, `N-Z = 2`. -/
def g1 : CsvRow :=
  { N := .num 11, Z := .num 9, E := .num (-1234), UE := .num 1,
    known := .num 1, A := .num 20, NmZ := .num 2, NdZ := .num 2 }

/-- A CSV row with `A = 20`, `N-Z = 4`. -/
def g2 : CsvRow :=
  { N := .num 12, Z := .num 8, E := .num 5678, UE := .num 2,
    known := .num 1, A := .num 20, NmZ := .num 4, NdZ := .num 2 }

/-- C8 (witness): two records sharing `A = 20` but with `N-Z` 2 and 4
land in the same column, different rows, without cross-contamination,
and the absent key `(0, 20)` stays empty. -/
theorem pivot_grid_correct_witness :
    rendererGrid [g1, g2] g1.NmZ g1.A = some (pdivP g1.E (PVal.num 1000)) ∧
    rendererGrid [g1, g2] g2.NmZ g2.A = some (pdivP g2.E (PVal.num 1000)) ∧
    rendererGrid [g1, g2] (PVal.num 0) (PVal.num 20) = none :=
  pivot_grid_correct [g1, g2] (by decide) g1 (List.Mem.head _)
    g2 (List.Mem.tail _ (List.Mem.head _)) (PVal.num 0) (PVal.num 20) (by decide)

/-! ## Claim C9 -/

/-- C9: the rendered surface depends only on the `N-Z`, `A` and `E`
columns of the input CSV: two CSVs that agree row-for-row on those
three columns — however much they differ in `U(E)`, `known`, `N`, `Z`
or `N/Z` — pivot to identical grids, and hence give identical plotted
z-values under any pointwise map of the grid (in the script,
`np.exp`); in particular `U(E)` is converted to MeV but never used in
the plot. -/
theorem surface_ignores_other_columns (rows1 rows2 : List CsvRow)
    (hlen : rows1.length = rows2.length)
    (hagree : ∀ p ∈ rows1.zip rows2, p.1.NmZ = p.2.NmZ ∧ p.1.A = p.2.A ∧ p.1.E = p.2.E)
    (d a : PVal) (g : PVal → PVal) :
    rendererGrid rows1 d a = rendererGrid rows2 d a ∧
    (rendererGrid rows1 d a).map g = (rendererGrid rows2 d a).map g := by
  have h : rendererGrid rows1 d a = rendererGrid rows2 d a :=
    pivotCell_agree rows1 rows2 hlen hagree d a
  exact ⟨h, congrArg (Option.map g) h⟩

/-- `g1` with different `N`, `Z`, `U(E)`, `known` and `N/Z` cells. -/
def g1b : CsvRow :=
  { N := .nan, Z := .num 5, E := .num (-1234), UE := .num 77,
    known := .num 0, A := .num 20, NmZ := .num 2, NdZ := .inf }

/-- `g2` with different `N`, `U(E)` and `known` cells. -/
def g2b : CsvRow :=
  { N := .num 99, Z := .num 8, E := .num 5678, UE := .nan,
    known := .nan, A := .num 20, NmZ := .num 4, NdZ := .num 2 }

/-- C9 (witness): the two concrete CSVs agree on `N-Z`, `A`, `E` only,
and their grids and mapped grids coincide at the key `(2, 20)`. -/
theorem surface_ignores_other_columns_witness :
    rendererGrid [g1, g2] (PVal.num 2) (PVal.num 20)
        = rendererGrid [g1b, g2b] (PVal.num 2) (PVal.num 20) ∧
    (rendererGrid [g1, g2] (PVal.num 2) (PVal.num 20)).map (fun v => v)
        = (rendererGrid [g1b, g2b] (PVal.num 2) (PVal.num 20)).map (fun v => v) :=
  surface_ignores_other_columns [g1, g2] [g1b, g2b] (by decide) (by decide)
    (PVal.num 2) (PVal.num 20) (fun v => v)

/-! ## Claim C10 -/

/-- C10: the marker stripping of lines 16-17 removes every occurrence
of the character # anywhere in the field, concatenating the remaining
characters in order, before numeric parsing; e.g. the raw field
"12#34" parses to 1234 and "-1234##" parses to -1234. -/
theorem strip_hash_removes_every_marker :
    (∀ cs : List Char, stripHash cs = cs.filter (fun c => c != '#')) ∧
    parseNum (stripHash "12#34".toList) = some 1234 ∧
    parseNum (stripHash "-1234##".toList) = some (-1234) := by
  refine ⟨?_, ?_, ?_⟩
  · intro cs
    induction cs with
    | nil => rfl
    | cons c cs ih =>
      simp only [stripHash, List.filter_cons]
      by_cases hc : c = '#'
      · simp [hc, ih]
      · simp [hc, ih]
  · exact (show parseNum (stripHash "12#34".toList)
        = parseNum "1234".toList from rfl).trans parseNum_1234
  · exact (show parseNum (stripHash "-1234##".toList)
        = parseNum "-1234".toList from rfl).trans parseNum_neg1234

end SemfModel
